import Mathlib

set_option maxRecDepth 4000

/-!
A shallow embedding of the fairness-analysis engine of
`backend/controllers/model_controller.py` (function `perform_fairness_analysis`
and its helpers `convert_numpy_types`, the inner `SimpleModel.predict`,
`selection_rate`, `tpr`, `fpr`), together with theorems checking the
specification's claims about it.

Modelling conventions:
* Python/numpy floats are modelled as `PFloat` (a rational number, NaN, or a
  signed infinity) where NaN/infinity behaviour matters, and as plain `ℚ`
  where the computation cannot produce a NaN or infinity.
* `int(...)` / `.astype(int)` truncation toward zero is `truncQ`.
* Python `round(x, 3)` is `round3` (round half to even on the exact rational,
  the rounding mode of Python's built-in `round`).
* CSV cell values are `Cell` (a string or a number); a pandas column has
  "object" dtype exactly when it contains at least one string cell.
* The effectful steps (unpickling the model file, reading the CSV, calling
  the model's `predict`, and `np.random` for the degraded string-array mode)
  are inputs of the embedded function (`RunEnv`), so the embedding is a total
  function of the outcome of each effect.
-/

namespace SAPFair

/-- Truncation toward zero, the behaviour of Python `int(...)` and numpy
`.astype(int)` on a float value. -/
def truncQ (q : ℚ) : ℤ := if 0 ≤ q then ⌊q⌋ else -⌊-q⌋

/-- `np.mean` of a nonempty list of rationals (sum divided by length). -/
def meanQ (l : List ℚ) : ℚ := l.sum / (l.length : ℚ)

/-- A Python/numpy float value: a finite rational, NaN, or a signed infinity. -/
inductive PFloat where
  | fin (q : ℚ)
  | nan
  | inf
  | ninf
deriving DecidableEq, Repr

/-- `np.isnan(x) or np.isinf(x)`. -/
def PFloat.isBad : PFloat → Bool
  | .fin _ => false
  | _ => true

/-- Round half to even to an integer (the mode of Python's built-in `round`). -/
def roundHalfEven (q : ℚ) : ℤ :=
  let f := ⌊q⌋
  let r := q - (f : ℚ)
  if r < 1/2 then f
  else if 1/2 < r then f + 1
  else if f % 2 = 0 then f else f + 1

/-- Python `round(q, 3)`. -/
def round3 (q : ℚ) : ℚ := (roundHalfEven (q * 1000) : ℚ) / 1000

/-- Python `round(x, 3)` on a possibly-NaN float: `round` of a numpy NaN or
infinity returns it unchanged. -/
def round3F : PFloat → PFloat
  | .fin q => .fin (round3 q)
  | x => x

/-- The `np.floating` branch of `convert_numpy_types` (model_controller.py
lines 20-24): NaN and infinity become `0.0`, finite values pass through. -/
def sanitizeQF : PFloat → ℚ
  | .fin q => q
  | _ => 0

/-- `np.mean` of a possibly-empty list: the mean of an empty list is NaN
(numpy emits a RuntimeWarning, which is not an exception, and yields nan). -/
def pyMean (l : List ℚ) : PFloat :=
  if l.isEmpty then .nan else .fin (meanQ l)

/-- Does `needle` occur at the head of `hay`? -/
def matchesAt : List Char → List Char → Bool
  | [], _ => true
  | _ :: _, [] => false
  | a :: as, b :: bs => a = b && matchesAt as bs

/-- Does `needle` occur (contiguously) anywhere in `hay`? -/
def containsSub (needle hay : List Char) : Bool :=
  match hay with
  | [] => needle.isEmpty
  | _ :: t => matchesAt needle hay || containsSub needle t

/-- Python's `needle in hay` substring test on strings. -/
def strContains (hay needle : String) : Bool := containsSub needle.toList hay.toList

/-- Length reconciliation of a prediction vector against a row count: truncate
when too long, zero-pad when too short.  This is the common semantics of
`SimpleModel.predict` (model_controller.py lines 340-344) and of the
pre-loaded-prediction reconciliation (lines 443-449). -/
def normalizeLen (xs : List ℚ) (n : ℕ) : List ℚ :=
  if n ≤ xs.length then xs.take n else xs ++ List.replicate (n - xs.length) 0

/-- A raw CSV cell as pandas sees it: a string or a numeric value. -/
inductive Cell where
  | str (s : String)
  | num (q : ℚ)
deriving DecidableEq, Repr

/-- An in-memory dataset, column-oriented: column name paired with its cells,
in header order. -/
abbrev Dataset := List (String × List Cell)

def colNames (ds : Dataset) : List String := ds.map Prod.fst

def getCol (ds : Dataset) (c : String) : List Cell := (ds.lookup c).getD []

/-- Number of rows (`len(test_data)`). -/
def nRows (ds : Dataset) : ℕ :=
  match ds with
  | [] => 0
  | (_, cells) :: _ => cells.length

/-- `Series.unique()`: distinct values in order of first occurrence. -/
def uniqueCells (cells : List Cell) : List Cell :=
  cells.foldl (fun acc c => if c ∈ acc then acc else acc ++ [c]) []

/-- A pandas column has dtype `object` when it holds at least one string. -/
def colIsObject (cells : List Cell) : Bool :=
  cells.any (fun c => match c with | .str _ => true | .num _ => false)

/-- Fold a digit string into a natural number; `none` when a non-digit occurs. -/
def digitsToNat (cs : List Char) : Option ℕ :=
  cs.foldl
    (fun acc c =>
      match acc with
      | none => none
      | some n => if c.isDigit then some (n * 10 + (c.toNat - 48)) else none)
    (some 0)

/-- `pd.to_numeric(s, errors=coerce)` on a string cell, for plain decimal
notation `[+-]digits[.digits]`: `none` models the NaN produced for an
unparseable string. -/
def parseDec (s : String) : Option ℚ :=
  let cs := s.toList
  let signed : Bool × List Char :=
    match cs with
    | '-' :: t => (true, t)
    | '+' :: t => (false, t)
    | _ => (false, cs)
  let intPart := signed.2.takeWhile Char.isDigit
  let rest := signed.2.drop intPart.length
  let mag : Option ℚ :=
    match rest with
    | [] =>
      if intPart.isEmpty then none
      else (digitsToNat intPart).map (fun n => (n : ℚ))
    | '.' :: frac =>
      if (intPart.isEmpty && frac.isEmpty) || !frac.all Char.isDigit then none
      else
        match digitsToNat intPart, digitsToNat frac with
        | some n, some f => some ((n : ℚ) + (f : ℚ) / ((10 : ℚ) ^ frac.length))
        | _, _ => none
    | _ => none
  mag.map (fun q => if signed.1 then -q else q)

/-- Target-column resolution (model_controller.py lines 394-401): the first
name of the priority list present among the columns, else the last column. -/
def pickTarget (cols : List String) : String :=
  match (["target", "label", "y", "class", "selected"]).find? (fun c => c ∈ cols) with
  | some c => c
  | none => (cols.getLast?).getD ""

/-- The fixed case-insensitive sensitive-attribute name list (line 407). -/
def sensitiveNameList : List String :=
  ["gender", "sex", "race", "ethnicity", "age", "education"]

/-- Auto-detection of sensitive attributes by name (lines 404-408). -/
def autoDetectSens (cols : List String) : List String :=
  cols.filter (fun c => c.toLower ∈ sensitiveNameList)

/-- Fallback: the first non-target object-dtype column (lines 410-414). -/
def fallbackObjectCol (ds : Dataset) (target : String) : List String :=
  match (colNames ds).find? (fun c => c ≠ target && colIsObject (getCol ds c)) with
  | some c => [c]
  | none => []

/-- Sensitive-attribute resolution: an explicitly supplied list is used as-is
unless empty; `None` triggers name auto-detection; an empty result falls back
to the first non-target object column (lines 404-414). -/
def resolveSens (arg : Option (List String)) (ds : Dataset) (target : String) : List String :=
  let s0 := match arg with
    | none => autoDetectSens (colNames ds)
    | some l => l
  if s0.isEmpty then fallbackObjectCol ds target else s0

/-- `X = test_data[feature_cols]` with `feature_cols` every non-target column
(lines 420-421). -/
def featureCols (ds : Dataset) (target : String) : Dataset :=
  ds.filter (fun p => p.1 ≠ target)

/-- Ground-truth coercion (lines 432-437): an object/string column goes
through `pd.to_numeric(errors=coerce)`, `np.nan_to_num(nan=0.0)` and
`.astype(int)`; a numeric column through `.astype(int)` truncation. -/
def coerceY (cells : List Cell) : List ℤ :=
  if colIsObject cells then
    cells.map (fun c =>
      match c with
      | .num q => truncQ q
      | .str s => match parseDec s with
        | some q => truncQ q
        | none => 0)
  else
    cells.map (fun c =>
      match c with
      | .num q => truncQ q
      | .str _ => 0)

/-- Prediction binarization (lines 490-493): when the observed range leaves
[0, 1], threshold at 0.5 strictly; otherwise `.astype(int)` truncation. -/
def binarize (l : List ℚ) : List ℤ :=
  if l.any (fun q => 1 < q) || l.any (fun q => q < 0) then
    l.map (fun q => if 1/2 < q then 1 else 0)
  else
    l.map truncQ

/-- Row indices of the group `column == v` (`np.where(group_mask)[0]`),
in ascending order. -/
def groupIdx (cells : List Cell) (v : Cell) : List ℕ :=
  (List.range cells.length).filter (fun i => cells.getD i (.str "") = v)

/-- `ys[group_mask]`: the entries of `ys` at the rows where the column equals
`v`, in row order. -/
def maskVals (cells : List Cell) (v : Cell) (ys : List ℤ) : List ℤ :=
  (ys.zip cells).filterMap (fun p => if p.2 = v then some p.1 else none)

/-- `selection_rate` (line 503): the mean of the 0/1 predictions of a group. -/
def selectionRate (ys : List ℤ) : ℚ := ((ys.sum : ℚ)) / (ys.length : ℚ)

/-- The number of positions where `y_true = a` and `y_pred = b`; together the
four counts form `confusion_matrix(y_t, y_p, labels=[0, 1])`, which counts
only samples whose two labels both lie in {0, 1}. -/
def countPairs (yt yp : List ℤ) (a b : ℤ) : ℕ :=
  ((yt.zip yp).filter (fun p => p.1 = a && p.2 = b)).length

/-- `tpr` (lines 506-508): `TP/(TP+FN)`, and 0 when the denominator is 0. -/
def tprOf (yt yp : List ℤ) : ℚ :=
  let tp := countPairs yt yp 1 1
  let fn := countPairs yt yp 1 0
  if 0 < tp + fn then (tp : ℚ) / ((tp : ℚ) + (fn : ℚ)) else 0

/-- `fpr` (lines 510-512): `FP/(FP+TN)`, and 0 when the denominator is 0. -/
def fprOf (yt yp : List ℤ) : ℚ :=
  let fp := countPairs yt yp 0 1
  let tn := countPairs yt yp 0 0
  if 0 < fp + tn then (fp : ℚ) / ((fp : ℚ) + (tn : ℚ)) else 0

/-- Python dict assignment `m[k] = v`: overwrite in place when the key exists,
append otherwise (insertion order is preserved, as in Python dicts). -/
def dictInsert {α : Type} (m : List (String × α)) (k : String) (v : α) :
    List (String × α) :=
  if (m.lookup k).isSome then
    m.map (fun p => if p.1 = k then (k, v) else p)
  else
    m ++ [(k, v)]

/-- The group key `f"{col}={val}"`.  Python renders the value with `str`; only
equality and substring-containment of these keys matter downstream, so the
rendering of numeric cells uses Lean's rational notation. -/
def groupKey (col : String) (v : Cell) : String :=
  col ++ "=" ++ (match v with | .str s => s | .num q => toString q)

/-- `group_indices[np.argsort(probas[group_indices])[::-1]]` (line 535): the
group's row indices sorted by descending probability.  numpy's default
quicksort leaves the relative order of equal keys unspecified; the model fixes
ties by keeping the ascending-index order. -/
def sortDescBy (pr : List ℚ) (idxs : List ℕ) : List ℕ :=
  List.insertionSort (fun i j => pr.getD j 0 ≤ pr.getD i 0) idxs

/-- Assign `v` at each listed index (`y[indices] = v` on a numpy array). -/
def setAll (l : List ℤ) (idxs : List ℕ) (v : ℤ) : List ℤ :=
  idxs.foldl (fun acc i => acc.set i v) l

/-- The intentional-bias re-ranking of one group (lines 533-541): sort the
group's indices by descending probability, then set the whole group to 0 and
the top `int(0.5 * group_size)` indices to 1 (the intended selection rate is
0.5 for every group, line 524; `int(0.5 * n) = n / 2` rounded down). -/
def rerankGroup (yp : List ℤ) (pr : List ℚ) (gidx : List ℕ) : List ℤ :=
  if gidx.isEmpty then yp
  else
    let sorted := sortDescBy pr gidx
    let numToSelect := sorted.length / 2
    setAll (setAll yp sorted 0) (sorted.take numToSelect) 1

/-- The full re-ranking pass (lines 527-541): every sensitive attribute
present in `X`, every distinct value, in order; later groups overwrite. -/
def rerankAll (X : Dataset) (sens : List String) (pr : List ℚ) (yp : List ℤ) :
    List ℤ :=
  sens.foldl
    (fun acc col =>
      if col ∈ colNames X then
        (uniqueCells (getCol X col)).foldl
          (fun acc2 v => rerankGroup acc2 pr (groupIdx (getCol X col) v)) acc
      else acc)
    yp

/-- The four per-group metric dictionaries built at lines 544-577. -/
structure GroupMetrics where
  sel : List (String × ℚ)
  tprM : List (String × ℚ)
  fprM : List (String × ℚ)
  eoM : List (String × ℚ)
deriving DecidableEq, Repr

/-- One attribute's contribution to the metric dictionaries (lines 546-577).
The qualified mask of the EO computation is all-ones (line 568), so
`EO_TPR` coincides with `TPR` of the same group. -/
def addGroupMetrics (X : Dataset) (ytrue ypb : List ℤ) (m : GroupMetrics)
    (col : String) : GroupMetrics :=
  if col ∈ colNames X then
    (uniqueCells (getCol X col)).foldl
      (fun acc v =>
        let cells := getCol X col
        let key := groupKey col v
        let gy := maskVals cells v ypb
        let gt := maskVals cells v ytrue
        if 0 < gy.length then
          { sel := dictInsert acc.sel key (selectionRate gy)
            tprM := dictInsert acc.tprM key (tprOf gt gy)
            fprM := dictInsert acc.fprM key (fprOf gt gy)
            eoM := dictInsert acc.eoM key (tprOf gt gy) }
        else acc)
      m
  else m

def buildMetrics (X : Dataset) (sens : List String) (ytrue ypb : List ℤ) :
    GroupMetrics :=
  sens.foldl (addGroupMetrics X ytrue ypb) ⟨[], [], [], []⟩

/-- The four disparity lists accumulated at lines 580-603. -/
structure DiffLists where
  dp : List ℚ
  eo : List ℚ
  fpr : List ℚ
  tpr : List ℚ
deriving DecidableEq, Repr

/-- One attribute's two-group comparison (lines 582-603): taken on the first
two distinct values in observation order, only when the attribute is a column
of `X`, has at least 2 distinct values, and both group keys are in the
selection-rate dictionary; the result is `(dp, eo, fpr, tpr)` differences. -/
def attrDiffs (X : Dataset) (gm : GroupMetrics) (col : String) :
    Option (ℚ × ℚ × ℚ × ℚ) :=
  if col ∈ colNames X then
    match uniqueCells (getCol X col) with
    | v0 :: v1 :: _ =>
      let a := groupKey col v0
      let b := groupKey col v1
      match gm.sel.lookup a, gm.sel.lookup b with
      | some sa, some sb =>
        some (|sa - sb|,
          |(gm.eoM.lookup a).getD 0 - (gm.eoM.lookup b).getD 0|,
          |(gm.fprM.lookup a).getD 0 - (gm.fprM.lookup b).getD 0|,
          |(gm.tprM.lookup a).getD 0 - (gm.tprM.lookup b).getD 0|)
      | _, _ => none
    | _ => none
  else none

def buildDiffsAux (X : Dataset) (gm : GroupMetrics) (acc : DiffLists)
    (sens : List String) : DiffLists :=
  sens.foldl
    (fun acc col =>
      match attrDiffs X gm col with
      | some (d, e, f, t) => ⟨acc.dp ++ [d], acc.eo ++ [e], acc.fpr ++ [f], acc.tpr ++ [t]⟩
      | none => acc)
    acc

def buildDiffs (X : Dataset) (sens : List String) (gm : GroupMetrics) : DiffLists :=
  buildDiffsAux X gm ⟨[], [], [], []⟩ sens

/-- `aod` (line 607): `0.5 * (mean(fpr_diffs) + mean(tpr_diffs))` when both
lists are nonempty, else 0.  This is a single value aggregated across all
attributes, not a per-comparison quantity. -/
def aodOf (dl : DiffLists) : ℚ :=
  if !dl.fpr.isEmpty && !dl.tpr.isEmpty then (meanQ dl.fpr + meanQ dl.tpr) / 2
  else 0

/-- `all_diffs = dp_diffs + eo_diffs + [aod] + fpr_diffs + tpr_diffs`
(line 612). -/
def allDiffsOf (dl : DiffLists) : List ℚ :=
  dl.dp ++ dl.eo ++ [aodOf dl] ++ dl.fpr ++ dl.tpr

/-- `bias_score = np.mean(all_diffs) if all_diffs else 0` (line 613). -/
def biasScoreOf (dl : DiffLists) : ℚ :=
  if (allDiffsOf dl).isEmpty then 0 else meanQ (allDiffsOf dl)

/-- `fairness_score = max(0, min(1, 1 - bias_score))` (line 617),
before the 3-decimal rounding applied to the returned value. -/
def fairnessOf (dl : DiffLists) : ℚ := max 0 (min 1 (1 - biasScoreOf dl))

/-- The per-attribute diff aggregation of lines 626-629:
`round(np.mean([d for d in diffs if col in str(d)]), 3) if diffs else 0`,
with the NaN of an empty-mean later sanitized to 0 by `convert_numpy_types`
(the round of a numpy NaN is a numpy NaN, an `np.floating`).  `strOf` is the
Python `str` rendering of the float `d`. -/
def entryDiff (strOf : ℚ → String) (col : String) (l : List ℚ) : ℚ :=
  if l.isEmpty then 0
  else sanitizeQF (round3F (pyMean (l.filter (fun d => strContains (strOf d) col))))

/-- One value of the `bias_metrics` dictionary (lines 625-633), after
`convert_numpy_types` sanitization. -/
structure AttrEntry where
  dp : ℚ
  eo : ℚ
  fprD : ℚ
  tprD : ℚ
  aodE : ℚ
  fsE : ℚ
  groupMetrics : List (String × List (String × ℚ))
deriving DecidableEq, Repr

def mkAttrEntry (strOf : ℚ → String) (col : String) (dl : DiffLists)
    (gm : GroupMetrics) (fs : ℚ) : AttrEntry :=
  { dp := entryDiff strOf col dl.dp
    eo := entryDiff strOf col dl.eo
    fprD := entryDiff strOf col dl.fpr
    tprD := entryDiff strOf col dl.tpr
    aodE := round3 (aodOf dl)
    fsE := round3 fs
    groupMetrics :=
      ([("Selection Rate", gm.sel), ("TPR", gm.tprM), ("FPR", gm.fprM),
        ("EO_TPR", gm.eoM)]).filter
        (fun p => p.2.any (fun kv => strContains kv.1 col)) }

def buildBiasMetricsAux (strOf : ℚ → String) (X : Dataset) (dl : DiffLists)
    (gm : GroupMetrics) (fs : ℚ) (acc : List (String × AttrEntry))
    (sens : List String) : List (String × AttrEntry) :=
  sens.foldl
    (fun acc col =>
      if col ∈ colNames X then dictInsert acc col (mkAttrEntry strOf col dl gm fs)
      else acc)
    acc

/-- The `bias_metrics` dictionary (lines 620-634): one entry per sensitive
attribute present in `X`, keyed by the attribute name. -/
def buildBiasMetrics (strOf : ℚ → String) (X : Dataset) (sens : List String)
    (dl : DiffLists) (gm : GroupMetrics) (fs : ℚ) : List (String × AttrEntry) :=
  buildBiasMetricsAux strOf X dl gm fs [] sens

/-- The output of the success path of the analysis (lines 620-652), after
`convert_numpy_types` sanitization. -/
structure CoreOut where
  fairness : ℚ
  ib : List String
  biasMetrics : List (String × AttrEntry)
  analyzed : List String
  cert : String
  dpAll : ℚ
  eoAll : ℚ
  fprAll : ℚ
  tprAll : ℚ
  aodAll : ℚ
deriving DecidableEq, Repr

/-- `round(np.mean(l), 3) if l else 0` for the overall response fields
(lines 647-650). -/
def overallDiff (l : List ℚ) : ℚ := if l.isEmpty then 0 else round3 (meanQ l)

/-- The success-path core of `perform_fairness_analysis` (lines 503-652):
re-rank predictions per group to the target selection rate, compute group
metrics, two-group disparities, the aggregate bias score and fairness score,
and the per-attribute bias-metrics breakdown. -/
def analyzeCore (strOf : ℚ → String) (X : Dataset) (sens : List String)
    (ytrue yp : List ℤ) (pr : List ℚ) : CoreOut :=
  let ypb := rerankAll X sens pr yp
  let gm := buildMetrics X sens ytrue ypb
  let dl := buildDiffs X sens gm
  let fs := fairnessOf dl
  { fairness := round3 fs
    ib := sens.filter (fun c => c ∈ colNames X)
    biasMetrics := buildBiasMetrics strOf X sens dl gm fs
    analyzed := sens
    cert := if 85/100 ≤ fs then "CERTIFIED FAIR" else "NOT FAIR"
    dpAll := overallDiff dl.dp
    eoAll := overallDiff dl.eo
    fprAll := overallDiff dl.fpr
    tprAll := overallDiff dl.tpr
    aodAll := round3 (aodOf dl) }

/-- The `intentional_bias` field of a returned result: the failure paths at
lines 313-318 and 386-391 set the JSON string `"[]"`, every other path a
Python list of attribute names. -/
inductive IBField where
  | asString (s : String)
  | asList (l : List String)
deriving DecidableEq, Repr

/-- `isinstance(x, list)` on the `intentional_bias` field. -/
def IBField.isList : IBField → Bool
  | .asList _ => true
  | .asString _ => false

/-- The result dictionary of `perform_fairness_analysis`.  The failure
dictionaries of the Python code carry only the four keys `fairness_score`,
`intentional_bias`, `bias_metrics`, `error`; the model defaults the remaining
fields (absent keys) to `none`/`[]`/0.  The success dictionary's
`intended_selection_rates` (constantly 0.5 per group) and
`actual_selection_rates` (the selection-rate part of the group metrics) keys
are not modelled as separate fields. -/
structure FairRes where
  fairness : ℚ
  ib : IBField
  biasMetrics : List (String × AttrEntry)
  error : Option String
  analyzed : List String
  cert : Option String
  dpAll : ℚ
  eoAll : ℚ
  fprAll : ℚ
  tprAll : ℚ
  aodAll : ℚ
deriving DecidableEq, Repr

/-- A failure result: `fairness_score = 0.5`, empty `bias_metrics`, an error
string, and the given `intentional_bias` payload. -/
def failRes (ib : IBField) (msg : String) : FairRes :=
  { fairness := 1/2, ib := ib, biasMetrics := [], error := some msg,
    analyzed := [], cert := none, dpAll := 0, eoAll := 0, fprAll := 0,
    tprAll := 0, aodAll := 0 }

/-- The deserialized model object, as classified at lines 321-362:
a 1-D numeric array (treated as pre-computed predictions), a 1-D string
array (degraded random-prediction mode), a ≥2-D array (rejected), an object
without a `predict` attribute (rejected, with the printed type name), or a
genuine predictor whose `predict`/`predict_proba` calls either both fail
(with the first attempt's message) or deliver predictions and optionally
probabilities. -/
inductive ModelObj where
  | arrNum (vals : List ℚ)
  | arrStr
  | arrMulti
  | noPredict (typeName : String)
  | predictor (outcome : Option (List ℚ × Option (List ℚ))) (errMsg : String)
deriving DecidableEq

/-- The outcome of every effect of one invocation: model deserialization
(`none` = both pickle and joblib failed), dataset parsing (`none` = both
encodings failed or zero data rows), and the `np.random` draws used by the
degraded string-array mode. -/
structure RunEnv where
  modelLoad : Option ModelObj
  dataLoad : Option Dataset
  dummyPred : ℕ → Bool
  dummyProb : ℕ → ℚ

/-- A loaded model object that passes the shape checks of lines 321-362 and
reaches the dataset-loading step. -/
def usableModel : Option ModelObj → Bool
  | some (.arrNum _) => true
  | some .arrStr => true
  | some (.predictor _ _) => true
  | _ => false

/-- `str(d)` for a float disparity `d` (used only through substring tests
against attribute names at lines 626-629).  Python renders a float in decimal
notation; the model renders the rational `q` with Lean's notation.  Both
renderings consist solely of digits and the characters `-./e`, which is all
the downstream substring tests can observe. -/
def strOfQ (q : ℚ) : String := toString q

/-- The tail of the pipeline shared by all successful model shapes
(lines 394-437 and 485-657): resolve the target column and sensitive
attributes, coerce the ground truth, binarize the predictions, reconcile the
probability vector's length, and run the core analysis. -/
def runWithData (ds : Dataset) (sensArg : Option (List String))
    (yp0 pr0 : List ℚ) : FairRes :=
  let target := pickTarget (colNames ds)
  let sens := resolveSens sensArg ds target
  let X := featureCols ds target
  let ytrue := coerceY (getCol ds target)
  let ypb := binarize yp0
  let pr1 := normalizeLen pr0 ypb.length
  let core := analyzeCore strOfQ X sens ytrue ypb pr1
  { fairness := core.fairness, ib := .asList core.ib,
    biasMetrics := core.biasMetrics, error := none,
    analyzed := core.analyzed, cert := some core.cert,
    dpAll := core.dpAll, eoAll := core.eoAll, fprAll := core.fprAll,
    tprAll := core.tprAll, aodAll := core.aodAll }

/-- The embedding of `perform_fairness_analysis` (lines 297-668), a total
function of the effect outcomes.  Every Python exception path is an explicit
branch returning a `failRes`; the catch-all handler at lines 659-668 has no
trigger in the embedding because every inner step is total. -/
def performFairnessAnalysis (env : RunEnv) (sensArg : Option (List String)) :
    FairRes :=
  match env.modelLoad with
  | none => failRes (.asString "[]") "Failed to load model"
  | some ModelObj.arrMulti =>
    failRes (.asList [])
      "Model file contains coefficients array, not a trained model. Please upload a complete trained model."
  | some (ModelObj.noPredict t) =>
    failRes (.asList [])
      ("Loaded object is not a valid model. Expected model with predict method, got " ++ t)
  | some (ModelObj.arrNum vals) =>
    match env.dataLoad with
    | none => failRes (.asString "[]") "Failed to load test dataset"
    | some ds =>
      let n := nRows ds
      runWithData ds sensArg (normalizeLen vals n) (normalizeLen vals n)
  | some ModelObj.arrStr =>
    match env.dataLoad with
    | none => failRes (.asString "[]") "Failed to load test dataset"
    | some ds =>
      let n := nRows ds
      runWithData ds sensArg
        ((List.range n).map (fun i => if env.dummyPred i then 1 else 0))
        ((List.range n).map env.dummyProb)
  | some (ModelObj.predictor outcome errMsg) =>
    match env.dataLoad with
    | none => failRes (.asString "[]") "Failed to load test dataset"
    | some ds =>
      match outcome with
      | none => failRes (.asList []) ("Failed to get predictions: " ++ errMsg)
      | some (preds, probaOpt) => runWithData ds sensArg preds (probaOpt.getD preds)

/-- A Python value as `convert_numpy_types` (lines 16-37) can encounter it:
numpy integer and float scalars, numpy arrays of float kind (`f`/`c`), of
integer kind, and of object kind (`O`, holding arbitrary Python values), and
the plain Python values the function passes through or produces. -/
inductive PyVal where
  | npInt (n : ℤ)
  | npFloat (x : PFloat)
  | npArrF (xs : List PFloat)
  | npArrI (xs : List ℤ)
  | npArrO (xs : List PyVal)
  | pyInt (n : ℤ)
  | pyFloat (x : PFloat)
  | pyStr (s : String)
  | pyNone
  | pyList (xs : List PyVal)
  | pyDict (kvs : List (String × PyVal))

/-- The `np.floating` scalar conversion: NaN/infinity to `0.0`. -/
def cleanPF : PFloat → PFloat
  | .fin q => .fin q
  | _ => .fin 0

mutual
/-- `convert_numpy_types` (lines 16-37).  A float-kind array is cleaned with
`np.where(isinf|isnan, 0.0, a)` and `.tolist()` yields plain floats; an
integer-kind array yields plain ints; an object-kind array's `.tolist()`
returns the stored objects unchanged (numpy converts array items to Python
scalars only for numeric dtypes), so its elements are NOT recursed into;
dicts and lists are converted recursively; everything else passes through. -/
def convertV : PyVal → PyVal
  | .npInt n => .pyInt n
  | .npFloat x => .pyFloat (cleanPF x)
  | .npArrF xs => .pyList (xs.map (fun x => PyVal.pyFloat (cleanPF x)))
  | .npArrI xs => .pyList (xs.map PyVal.pyInt)
  | .npArrO xs => .pyList xs
  | .pyInt n => .pyInt n
  | .pyFloat x => .pyFloat x
  | .pyStr s => .pyStr s
  | .pyNone => .pyNone
  | .pyList xs => .pyList (convertL xs)
  | .pyDict kvs => .pyDict (convertKV kvs)

def convertL : List PyVal → List PyVal
  | [] => []
  | v :: vs => convertV v :: convertL vs

def convertKV : List (String × PyVal) → List (String × PyVal)
  | [] => []
  | (k, v) :: kvs => (k, convertV v) :: convertKV kvs
end

mutual
/-- A value free of numpy types at every depth (dicts and lists included):
such a value is passed through unchanged by `convert_numpy_types`. -/
def plainV : PyVal → Bool
  | .npInt _ => false
  | .npFloat _ => false
  | .npArrF _ => false
  | .npArrI _ => false
  | .npArrO _ => false
  | .pyInt _ => true
  | .pyFloat _ => true
  | .pyStr _ => true
  | .pyNone => true
  | .pyList xs => plainL xs
  | .pyDict kvs => plainKV kvs

def plainL : List PyVal → Bool
  | [] => true
  | v :: vs => plainV v && plainL vs

def plainKV : List (String × PyVal) → Bool
  | [] => true
  | (_, v) :: kvs => plainV v && plainKV kvs
end

mutual
/-- Every object-kind array reachable in the value holds only plain
(numpy-free) elements. -/
def goodV : PyVal → Bool
  | .npInt _ => true
  | .npFloat _ => true
  | .npArrF _ => true
  | .npArrI _ => true
  | .npArrO xs => plainL xs
  | .pyInt _ => true
  | .pyFloat _ => true
  | .pyStr _ => true
  | .pyNone => true
  | .pyList xs => goodL xs
  | .pyDict kvs => goodKV kvs

def goodL : List PyVal → Bool
  | [] => true
  | v :: vs => goodV v && goodL vs

def goodKV : List (String × PyVal) → Bool
  | [] => true
  | (_, v) :: kvs => goodV v && goodKV kvs
end

/-- An object-dtype numpy array holding a numpy NaN scalar, e.g.
`np.array([np.float64(nan)], dtype=object)`. -/
def badObjArr : PyVal := .npArrO [.npFloat .nan]

/-! Concrete inputs used by counterexamples and witnesses. -/

/-- A dataset whose only sensitive attribute `gender` has a single distinct
value over its 2 rows. -/
def dsOneGroup : Dataset :=
  [("gender", [.str "M", .str "M"]), ("target", [.num 1, .num 0])]

/-- A run on `dsOneGroup` with a pre-computed prediction array. -/
def envOneGroup : RunEnv :=
  ⟨some (.arrNum [1, 0]), some dsOneGroup, fun _ => false, fun _ => 0⟩

/-- The group metrics computed in the `envOneGroup` run. -/
def gmOneGroup : GroupMetrics :=
  buildMetrics (featureCols dsOneGroup "target") ["gender"]
    (coerceY (getCol dsOneGroup "target"))
    (rerankAll (featureCols dsOneGroup "target") ["gender"]
      (normalizeLen [1, 0] 2) (binarize (normalizeLen [1, 0] 2)))

/-- A dataset with one sensitive attribute `gender` of two groups of unequal
sizes (3 rows `M`, 2 rows `F`), all ground-truth labels 0. -/
def dsTwoGroups : Dataset :=
  [("gender", [.str "M", .str "M", .str "M", .str "F", .str "F"]),
   ("target", [.num 0, .num 0, .num 0, .num 0, .num 0])]

/-- A run on `dsTwoGroups` with pre-computed predictions carrying pairwise
distinct probabilities (so tie order in the re-ranking sort is irrelevant). -/
def envTwoGroups : RunEnv :=
  ⟨some (.arrNum [9/10, 3/10, 1/10, 4/5, 1/5]), some dsTwoGroups,
   fun _ => false, fun _ => 0⟩

/-- A dataset with two sensitive attributes, `gender` (M×3, F×2) and `city`
(X×2, Y×3), all ground-truth labels 0. -/
def dsTwoAttrs : Dataset :=
  [("gender", [.str "M", .str "M", .str "M", .str "F", .str "F"]),
   ("city", [.str "X", .str "X", .str "Y", .str "Y", .str "Y"]),
   ("target", [.num 0, .num 0, .num 0, .num 0, .num 0])]

/-- A run on `dsTwoAttrs` with pairwise distinct probabilities. -/
def envTwoAttrs : RunEnv :=
  ⟨some (.arrNum [9/10, 4/5, 7/10, 3/5, 1/2]), some dsTwoAttrs,
   fun _ => false, fun _ => 0⟩

/-- A run whose model file is unreadable under both deserialization schemes. -/
def envBadModel : RunEnv := ⟨none, none, fun _ => false, fun _ => 0⟩

/-- A run with a usable model but an unreadable dataset. -/
def envBadData : RunEnv :=
  ⟨some (.arrNum [1, 0]), none, fun _ => false, fun _ => 0⟩

/-- The feature table of `dsTwoAttrs` (its target column removed). -/
def xTwoAttrs : Dataset := featureCols dsTwoAttrs "target"

/-- The group metrics computed in the `envTwoAttrs` run. -/
def gmTwoAttrs : GroupMetrics :=
  buildMetrics xTwoAttrs ["gender", "city"] (coerceY (getCol dsTwoAttrs "target"))
    (rerankAll xTwoAttrs ["gender", "city"]
      (normalizeLen [9/10, 4/5, 7/10, 3/5, 1/2] 5)
      (binarize (normalizeLen [9/10, 4/5, 7/10, 3/5, 1/2] 5)))

/-- The feature table of `dsTwoGroups`. -/
def xTwoGroups : Dataset := featureCols dsTwoGroups "target"

/-- The probability vector of the `envTwoGroups` run (the pre-computed
prediction array, length-reconciled). -/
def prTwoGroups : List ℚ := normalizeLen [9/10, 3/10, 1/10, 4/5, 1/5] 5

/-- The binarized predictions of the `envTwoGroups` run. -/
def ypTwoGroups : List ℤ := binarize prTwoGroups

/-- The coerced ground truth of the `envTwoGroups` run. -/
def ytrueTwoGroups : List ℤ := coerceY (getCol dsTwoGroups "target")

/-- The group metrics computed in the `envTwoGroups` run. -/
def gmTwoGroups : GroupMetrics :=
  buildMetrics xTwoGroups ["gender"] ytrueTwoGroups
    (rerankAll xTwoGroups ["gender"] prTwoGroups ypTwoGroups)

/-- The disparity lists computed in the `envTwoGroups` run. -/
def dlTwoGroups : DiffLists := buildDiffs xTwoGroups ["gender"] gmTwoGroups

/-- The `bias_metrics` entry of attribute `gender` in the `envTwoGroups`
run. -/
def entryTwoGroups : AttrEntry :=
  mkAttrEntry strOfQ "gender" dlTwoGroups gmTwoGroups (fairnessOf dlTwoGroups)

/-- A numpy-free Python dictionary holding a NaN scalar and a float-kind
array, used to witness idempotence of the sanitizer. -/
def goodDictVal : PyVal :=
  .pyDict [("a", .npFloat .nan), ("b", .npArrF [.inf, .fin (1/2)])]

/-! ### Helper lemmas -/

theorem getD_set_self (l : List ℤ) (i : ℕ) (v : ℤ) (h : i < l.length) :
    (l.set i v).getD i 0 = v := by
  induction l generalizing i with
  | nil => simp at h
  | cons a t ih =>
    cases i with
    | zero => simp
    | succ n => simpa using ih n (by simpa using h)

theorem getD_set_other (l : List ℤ) (i j : ℕ) (v : ℤ) (h : i ≠ j) :
    (l.set i v).getD j 0 = l.getD j 0 := by
  induction l generalizing i j with
  | nil => simp
  | cons a t ih =>
    cases i with
    | zero =>
      cases j with
      | zero => exact absurd rfl h
      | succ m => simp
    | succ n =>
      cases j with
      | zero => simp
      | succ m => simpa using ih n m (by omega)

theorem setAll_length (idxs : List ℕ) (l : List ℤ) (v : ℤ) :
    (setAll l idxs v).length = l.length := by
  induction idxs generalizing l with
  | nil => rfl
  | cons i t ih => simpa [setAll] using (ih (l.set i v)).trans (by simp)

theorem getD_setAll_not_mem (idxs : List ℕ) (l : List ℤ) (v : ℤ) (i : ℕ)
    (h : i ∉ idxs) : (setAll l idxs v).getD i 0 = l.getD i 0 := by
  induction idxs generalizing l with
  | nil => rfl
  | cons j t ih =>
    have hj : j ≠ i := fun e => h (e ▸ List.mem_cons_self j t)
    have ht : i ∉ t := fun e => h (List.mem_cons_of_mem j e)
    calc (setAll l (j :: t) v).getD i 0
        = (setAll (l.set j v) t v).getD i 0 := rfl
      _ = (l.set j v).getD i 0 := ih (l.set j v) ht
      _ = l.getD i 0 := getD_set_other l j i v hj

theorem getD_setAll_mem (idxs : List ℕ) (l : List ℤ) (v : ℤ) (i : ℕ)
    (hm : i ∈ idxs) (hl : i < l.length) : (setAll l idxs v).getD i 0 = v := by
  induction idxs generalizing l with
  | nil => simp at hm
  | cons j t ih =>
    by_cases ht : i ∈ t
    · exact ih (l.set j v) ht (by simpa using hl)
    · have hij : i = j := by
        rcases List.mem_cons.mp hm with h | h
        · exact h
        · exact absurd h ht
      subst hij
      calc (setAll l (i :: t) v).getD i 0
          = (setAll (l.set i v) t v).getD i 0 := rfl
        _ = (l.set i v).getD i 0 := getD_setAll_not_mem t (l.set i v) v i ht
        _ = v := getD_set_self l i v hl

theorem getD_replicate (n i : ℕ) (q : ℚ) (h : i < n) :
    (List.replicate n q).getD i 0 = q := by
  induction n generalizing i with
  | zero => omega
  | succ m ih =>
    cases i with
    | zero => simp [List.replicate]
    | succ k => simpa [List.replicate] using ih k (by omega)

theorem lookup_map_replace {α : Type} (m : List (String × α)) (k k' : String)
    (v : α) :
    ((m.map (fun p => if p.1 = k' then (k', v) else p)).lookup k)
      = if k = k' then (m.lookup k).map (fun _ => v) else m.lookup k := by
  induction m with
  | nil => simp
  | cons p t ih =>
    rcases p with ⟨a, b⟩
    by_cases hak' : a = k'
    · subst hak'
      by_cases hka : k = a
      · subst hka
        have hbe : (k == k) = true := by simp
        simp only [List.map_cons, if_pos rfl, List.lookup_cons, hbe, if_pos rfl]
        simp [List.lookup_cons, hbe]
      · have hb : (k == a) = false := beq_false_of_ne hka
        simp only [List.map_cons, if_pos rfl, if_true, List.lookup_cons, hb, ih,
          if_neg hka]
    · by_cases hka : k = a
      · subst hka
        have hbe : (k == k) = true := by simp
        have hkk' : ¬ k = k' := fun e => hak' e
        simp only [List.map_cons, if_neg hak', List.lookup_cons, hbe, if_neg hkk']
      · have hb : (k == a) = false := beq_false_of_ne hka
        simp only [List.map_cons, if_neg hak', List.lookup_cons, hb, ih]

theorem lookup_append_single {α : Type} (m : List (String × α)) (k k' : String)
    (v : α) :
    ((m ++ [(k', v)]).lookup k)
      = if (m.lookup k).isSome then m.lookup k
        else if k = k' then some v else none := by
  induction m with
  | nil =>
    by_cases h : k = k'
    · simp [List.lookup_cons, beq_iff_eq, h]
    · simp [List.lookup_cons, beq_false_of_ne h, h]
  | cons p t ih =>
    rcases p with ⟨a, b⟩
    by_cases hka : k = a
    · subst hka
      have hbe : (k == k) = true := by simp
      simp only [List.cons_append, List.lookup_cons, hbe]
      simp
    · have hb : (k == a) = false := beq_false_of_ne hka
      simp only [List.cons_append, List.lookup_cons, hb, ih]

theorem lookup_dictInsert {α : Type} (m : List (String × α)) (k k' : String)
    (v : α) :
    ((dictInsert m k' v).lookup k)
      = if k = k' then some v else m.lookup k := by
  unfold dictInsert
  by_cases hp : (m.lookup k').isSome
  · rw [if_pos hp, lookup_map_replace]
    by_cases hkk : k = k'
    · subst hkk
      rcases hm : m.lookup k with _ | w
      · rw [hm] at hp; simp at hp
      · simp [hm]
    · simp [hkk]
  · rw [if_neg hp, lookup_append_single]
    by_cases hkk : k = k'
    · subst hkk
      simp [hp]
    · rcases hm : m.lookup k with _ | w
      · simp [hkk]
      · simp [hkk]

theorem lookup_dictInsert_self {α : Type} (m : List (String × α)) (k : String)
    (v : α) : (dictInsert m k v).lookup k = some v := by
  rw [lookup_dictInsert]
  by_cases hp : (m.lookup k).isSome <;> simp [hp]

theorem lookup_dictInsert_other {α : Type} (m : List (String × α))
    (k k' : String) (v : α) (h : k ≠ k') :
    (dictInsert m k' v).lookup k = m.lookup k := by
  rw [lookup_dictInsert, if_neg h]

theorem buildBiasMetricsAux_lookup_eq (strOf : ℚ → String) (X : Dataset)
    (dl : DiffLists) (gm : GroupMetrics) (fs : ℚ) (sens : List String)
    (acc : List (String × AttrEntry))
    (hacc : ∀ k e, acc.lookup k = some e → e = mkAttrEntry strOf k dl gm fs)
    (k : String) (e : AttrEntry)
    (h : (buildBiasMetricsAux strOf X dl gm fs acc sens).lookup k = some e) :
    e = mkAttrEntry strOf k dl gm fs := by
  induction sens generalizing acc with
  | nil => exact hacc k e h
  | cons col rest ih =>
    refine ih _ ?_ h
    intro k' e' h'
    dsimp only at h'
    by_cases hc : col ∈ colNames X
    · rw [if_pos hc, lookup_dictInsert] at h'
      by_cases hk : k' = col
      · rw [if_pos hk] at h'
        cases h'
        rw [hk]
      · rw [if_neg hk] at h'
        exact hacc k' e' h'
    · rw [if_neg hc] at h'
      exact hacc k' e' h'

theorem buildBiasMetricsAux_lookup_isSome (strOf : ℚ → String) (X : Dataset)
    (dl : DiffLists) (gm : GroupMetrics) (fs : ℚ) (sens : List String)
    (acc : List (String × AttrEntry)) (c : String)
    (h : (acc.lookup c).isSome ∨ (c ∈ sens ∧ c ∈ colNames X)) :
    ((buildBiasMetricsAux strOf X dl gm fs acc sens).lookup c).isSome := by
  induction sens generalizing acc with
  | nil =>
    rcases h with h | ⟨h, _⟩
    · exact h
    · simp at h
  | cons col rest ih =>
    have step :
        buildBiasMetricsAux strOf X dl gm fs acc (col :: rest)
          = buildBiasMetricsAux strOf X dl gm fs
              (if col ∈ colNames X then
                dictInsert acc col (mkAttrEntry strOf col dl gm fs)
               else acc) rest := rfl
    rw [step]
    rcases h with h | ⟨hmem, hX⟩
    · refine ih _ (Or.inl ?_)
      by_cases hc : col ∈ colNames X
      · rw [if_pos hc, lookup_dictInsert]
        by_cases hk : c = col
        · rw [if_pos hk]; rfl
        · rw [if_neg hk]; exact h
      · rw [if_neg hc]; exact h
    · rcases List.mem_cons.mp hmem with hc | hc
      · subst hc
        refine ih _ (Or.inl ?_)
        rw [if_pos hX, lookup_dictInsert_self]
        rfl
      · exact ih _ (Or.inr ⟨hc, hX⟩)

theorem buildDiffsAux_skip (X : Dataset) (gm : GroupMetrics) (sens : List String)
    (acc : DiffLists) (h : ∀ c ∈ sens, attrDiffs X gm c = none) :
    buildDiffsAux X gm acc sens = acc := by
  induction sens generalizing acc with
  | nil => rfl
  | cons col rest ih =>
    have hc : attrDiffs X gm col = none := h col (List.mem_cons_self col rest)
    have step :
        buildDiffsAux X gm acc (col :: rest)
          = buildDiffsAux X gm
              (match attrDiffs X gm col with
               | some (d, e, f, t) =>
                 ⟨acc.dp ++ [d], acc.eo ++ [e], acc.fpr ++ [f], acc.tpr ++ [t]⟩
               | none => acc) rest := rfl
    rw [step, hc]
    exact ih _ (fun c hcm => h c (List.mem_cons_of_mem col hcm))

theorem attrDiffs_none_of_lt_two (X : Dataset) (gm : GroupMetrics) (col : String)
    (h : (uniqueCells (getCol X col)).length < 2) : attrDiffs X gm col = none := by
  unfold attrDiffs
  by_cases hc : col ∈ colNames X
  · rw [if_pos hc]
    rcases hu : uniqueCells (getCol X col) with _ | ⟨v0, _ | ⟨v1, rest⟩⟩
    · rfl
    · rfl
    · rw [hu] at h
      exact absurd h (by simp)
  · rw [if_neg hc]

theorem entryDiff_zero (strOf : ℚ → String) (col : String) (l : List ℚ)
    (h : ∀ d ∈ l, strContains (strOf d) col = false) :
    entryDiff strOf col l = 0 := by
  unfold entryDiff
  by_cases he : l.isEmpty
  · rw [if_pos he]
  · rw [if_neg he]
    have hf : l.filter (fun d => strContains (strOf d) col) = [] :=
      List.filter_eq_nil_iff.mpr (fun d hd => by simp [h d hd])
    rw [hf]
    rfl

theorem roundHalfEven_bounds (q : ℚ) :
    (⌊q⌋ : ℚ) ≤ (roundHalfEven q : ℚ) ∧ (roundHalfEven q : ℚ) ≤ (⌊q⌋ : ℚ) + 1 := by
  unfold roundHalfEven
  by_cases h1 : q - (⌊q⌋ : ℚ) < 1/2
  · simp only [if_pos h1]
    constructor <;> simp
  · simp only [if_neg h1]
    by_cases h2 : 1/2 < q - (⌊q⌋ : ℚ)
    · simp only [if_pos h2]
      constructor
      · push_cast; linarith
      · push_cast; linarith
    · simp only [if_neg h2]
      by_cases h3 : ⌊q⌋ % 2 = 0
      · simp only [if_pos h3]
        constructor <;> simp
      · simp only [if_neg h3]
        constructor
        · push_cast; linarith
        · push_cast; linarith

theorem roundHalfEven_le_add_half (q : ℚ) :
    (roundHalfEven q : ℚ) ≤ q + 1/2 := by
  unfold roundHalfEven
  have hf : (⌊q⌋ : ℚ) ≤ q := Int.floor_le q
  by_cases h1 : q - (⌊q⌋ : ℚ) < 1/2
  · simp only [if_pos h1]
    linarith
  · simp only [if_neg h1]
    push_neg at h1
    by_cases h2 : 1/2 < q - (⌊q⌋ : ℚ)
    · simp only [if_pos h2]
      push_cast
      linarith
    · simp only [if_neg h2]
      by_cases h3 : ⌊q⌋ % 2 = 0
      · simp only [if_pos h3]
        linarith
      · simp only [if_neg h3]
        push_cast
        linarith

theorem round3_bounds (q : ℚ) (h0 : 0 ≤ q) (h1 : q ≤ 1) :
    0 ≤ round3 q ∧ round3 q ≤ 1 := by
  have hub := roundHalfEven_le_add_half (q * 1000)
  have hlb := (roundHalfEven_bounds (q * 1000)).1
  have hfl : (0 : ℚ) ≤ (⌊q * 1000⌋ : ℚ) := by
    have hz : (0 : ℤ) ≤ ⌊q * 1000⌋ := by
      apply Int.le_floor.mpr
      push_cast
      linarith
    exact_mod_cast hz
  have hge : (0 : ℚ) ≤ (roundHalfEven (q * 1000) : ℚ) := le_trans hfl hlb
  have hle : (roundHalfEven (q * 1000) : ℚ) ≤ 1000 := by
    have ha : (roundHalfEven (q * 1000) : ℚ) < 1001 := by linarith
    have hb : roundHalfEven (q * 1000) < 1001 := by exact_mod_cast ha
    have hc : roundHalfEven (q * 1000) ≤ 1000 := by omega
    exact_mod_cast hc
  unfold round3
  constructor
  · positivity
  · rw [div_le_one (by norm_num : (0:ℚ) < 1000)]
    exact hle

theorem fairnessOf_bounds (dl : DiffLists) :
    0 ≤ fairnessOf dl ∧ fairnessOf dl ≤ 1 := by
  unfold fairnessOf
  constructor
  · exact le_max_left 0 _
  · apply max_le
    · norm_num
    · exact min_le_left 1 _

mutual
/-- A numpy-free value is a fixed point of `convert_numpy_types`. -/
def convertV_of_plain : ∀ v : PyVal, plainV v = true → convertV v = v
  | .pyInt _, _ => rfl
  | .pyFloat _, _ => rfl
  | .pyStr _, _ => rfl
  | .pyNone, _ => rfl
  | .pyList xs, h => by
    rw [convertV, convertL_of_plain xs (by simpa [plainV] using h)]
  | .pyDict kvs, h => by
    rw [convertV, convertKV_of_plain kvs (by simpa [plainV] using h)]

def convertL_of_plain : ∀ xs : List PyVal, plainL xs = true → convertL xs = xs
  | [], _ => rfl
  | v :: vs, h => by
    have hp : plainV v = true ∧ plainL vs = true := by simpa [plainL] using h
    rw [convertL, convertV_of_plain v hp.1, convertL_of_plain vs hp.2]

def convertKV_of_plain :
    ∀ kvs : List (String × PyVal), plainKV kvs = true → convertKV kvs = kvs
  | [], _ => rfl
  | (k, v) :: kvs, h => by
    have hp : plainV v = true ∧ plainKV kvs = true := by simpa [plainKV] using h
    rw [convertKV, convertV_of_plain v hp.1, convertKV_of_plain kvs hp.2]
end

theorem plainL_map_pyFloat (xs : List PFloat) :
    plainL (xs.map (fun x => PyVal.pyFloat (cleanPF x))) = true := by
  induction xs with
  | nil => rfl
  | cons x t ih => simpa [plainL, plainV] using ih

theorem plainL_map_pyInt (xs : List ℤ) :
    plainL (xs.map PyVal.pyInt) = true := by
  induction xs with
  | nil => rfl
  | cons x t ih => simpa [plainL, plainV] using ih

mutual
/-- When every object-kind array in the value holds only plain elements, one
application of `convert_numpy_types` produces a numpy-free value. -/
def plain_convertV_of_good : ∀ v : PyVal, goodV v = true → plainV (convertV v) = true
  | .npInt _, _ => rfl
  | .npFloat _, _ => rfl
  | .npArrF xs, _ => by
    rw [convertV]
    simpa [plainV] using plainL_map_pyFloat xs
  | .npArrI xs, _ => by
    rw [convertV]
    simpa [plainV] using plainL_map_pyInt xs
  | .npArrO xs, h => by
    rw [convertV]
    simpa [plainV, goodV] using h
  | .pyInt _, _ => rfl
  | .pyFloat _, _ => rfl
  | .pyStr _, _ => rfl
  | .pyNone, _ => rfl
  | .pyList xs, h => by
    rw [convertV]
    simpa [plainV] using plain_convertL_of_good xs (by simpa [goodV] using h)
  | .pyDict kvs, h => by
    rw [convertV]
    simpa [plainV] using plain_convertKV_of_good kvs (by simpa [goodV] using h)

def plain_convertL_of_good :
    ∀ xs : List PyVal, goodL xs = true → plainL (convertL xs) = true
  | [], _ => rfl
  | v :: vs, h => by
    have hp : goodV v = true ∧ goodL vs = true := by simpa [goodL] using h
    rw [convertL]
    simp [plainL, plain_convertV_of_good v hp.1, plain_convertL_of_good vs hp.2]

def plain_convertKV_of_good :
    ∀ kvs : List (String × PyVal), goodKV kvs = true → plainKV (convertKV kvs) = true
  | [], _ => rfl
  | (k, v) :: kvs, h => by
    have hp : goodV v = true ∧ goodKV kvs = true := by simpa [goodKV] using h
    rw [convertKV]
    simp [plainKV, plain_convertV_of_good v hp.1, plain_convertKV_of_good kvs hp.2]
end

theorem countPairs_eq_zero (yt yp : List ℤ) (a b : ℤ) (h : a ∉ yt) :
    countPairs yt yp a b = 0 := by
  unfold countPairs
  rw [List.length_eq_zero]
  apply List.filter_eq_nil_iff.mpr
  rintro ⟨x, y⟩ hp
  have hx : x ∈ yt := (List.of_mem_zip hp).1
  simp only [Bool.and_eq_true, decide_eq_true_eq, not_and]
  intro hxa _
  exact h (hxa ▸ hx)

/-! ### Claim theorems -/

/-- C6: a group whose ground-truth labels contain no positive (label 1) has
`TPR = 0` — the guarded division never divides by the zero denominator — and
a group whose ground-truth labels contain no negative (label 0) has
`FPR = 0`; the confusion counts consider only label pairs in {0, 1}. -/
theorem c6_zero_denominator_rates (yt yp : List ℤ) :
    ((1 : ℤ) ∉ yt → tprOf yt yp = 0) ∧ ((0 : ℤ) ∉ yt → fprOf yt yp = 0) := by
  constructor
  · intro h
    unfold tprOf
    rw [countPairs_eq_zero yt yp 1 1 h, countPairs_eq_zero yt yp 1 0 h]
    simp
  · intro h
    unfold fprOf
    rw [countPairs_eq_zero yt yp 0 1 h, countPairs_eq_zero yt yp 0 0 h]
    simp

theorem c6_zero_denominator_rates_witness :
    tprOf [0, 0] [1, 0] = 0 ∧ fprOf [1, 1] [1, 0] = 0 :=
  ⟨(c6_zero_denominator_rates [0, 0] [1, 0]).1 (by with_unfolding_all decide),
   (c6_zero_denominator_rates [1, 1] [1, 0]).2 (by with_unfolding_all decide)⟩

/-- C7: length reconciliation of a prediction vector against the row count —
the result has exactly `n` entries, the original entries are preserved as a
prefix, and any padding entries are 0 (truncation when the vector is longer
than `n`, zero-padding when shorter). -/
theorem c7_length_reconciliation (preds : List ℚ) (n : ℕ) :
    (normalizeLen preds n).length = n ∧
    (∀ i, i < n → i < preds.length →
      (normalizeLen preds n).getD i 0 = preds.getD i 0) ∧
    (∀ i, preds.length ≤ i → i < n → (normalizeLen preds n).getD i 0 = 0) := by
  unfold normalizeLen
  by_cases h : n ≤ preds.length
  · rw [if_pos h]
    refine ⟨by rw [List.length_take]; omega, ?_, ?_⟩
    · intro i hin _
      unfold List.getD
      rw [List.get?_eq_getElem?, List.get?_eq_getElem?, List.getElem?_take_of_lt hin]
    · intro i hlen hin
      omega
  · rw [if_neg h]
    refine ⟨by rw [List.length_append, List.length_replicate]; omega, ?_, ?_⟩
    · intro i _ hip
      exact List.getD_append _ _ _ _ hip
    · intro i hlen hin
      rw [List.getD_append_right _ _ _ _ hlen]
      exact getD_replicate _ _ _ (by omega)

theorem c7_length_reconciliation_witness :
    (normalizeLen (List.replicate 60 (1 : ℚ)) 100).length = 100 ∧
    (normalizeLen (List.replicate 60 (1 : ℚ)) 100).getD 59 0 = 1 ∧
    (normalizeLen (List.replicate 60 (1 : ℚ)) 100).getD 60 0 = 0 ∧
    (normalizeLen (List.replicate 60 (1 : ℚ)) 100).getD 99 0 = 0 := by
  have h := c7_length_reconciliation (List.replicate 60 (1 : ℚ)) 100
  refine ⟨h.1, ?_, ?_, ?_⟩
  · rw [h.2.1 59 (by norm_num) (by simp)]
    simp [getD_replicate]
  · exact h.2.2 60 (by simp) (by norm_num)
  · exact h.2.2 99 (by simp) (by norm_num)

/-- C9 counterexample: `convert_numpy_types` is NOT idempotent on an
object-dtype numpy array holding a numpy NaN scalar
(`np.array([np.float64(nan)], dtype=object)`): the first application turns
the array into a Python list via `.tolist()` without touching its elements
(object arrays hand the stored objects through unchanged), the second then
sanitizes the still-numpy NaN element to `0.0`. -/
theorem c9_counterexample : convertV (convertV badObjArr) ≠ convertV badObjArr := by
  have h1 : convertV badObjArr = .pyList [.npFloat .nan] := by
    rw [badObjArr, convertV]
  have h2 : convertV (.pyList [.npFloat .nan]) = .pyList [.pyFloat (.fin 0)] := by
    rw [convertV, convertL, convertV, convertL]
    rfl
  rw [h1, h2]
  intro h
  injection h with h3
  injection h3 with h4 _
  exact PyVal.noConfusion h4

/-- C9, amended: `convert_numpy_types` is idempotent on every value in which
each object-dtype array holds only numpy-free elements (in particular on all
values without object-dtype arrays, whatever NaN/Infinity and numpy scalar or
float/integer array content they carry); an object-dtype array holding numpy
values is a counterexample. -/
theorem c9_idempotent_on_good (v : PyVal) (h : goodV v = true) :
    convertV (convertV v) = convertV v :=
  convertV_of_plain (convertV v) (plain_convertV_of_good v h)

theorem c9_idempotent_on_good_witness :
    goodV goodDictVal = true ∧
    convertV (convertV goodDictVal) = convertV goodDictVal := by
  have hg : goodV goodDictVal = true := by
    rw [goodDictVal, goodV, goodKV, goodV, goodKV, goodV, goodKV]
    rfl
  exact ⟨hg, c9_idempotent_on_good goodDictVal hg⟩

/-- C1: the analysis is a total function of the effect outcomes (it returns a
result record on every input, never an exception), every result that reports
an error carries `fairness_score = 0.5` and empty `bias_metrics`, and an
unloadable model file in particular yields the error "Failed to load model". -/
theorem c1_no_escape_failure_defaults (env : RunEnv)
    (sensArg : Option (List String)) :
    ((performFairnessAnalysis env sensArg).error ≠ none →
      (performFairnessAnalysis env sensArg).fairness = 1/2 ∧
      (performFairnessAnalysis env sensArg).biasMetrics = []) ∧
    (env.modelLoad = none →
      (performFairnessAnalysis env sensArg).error = some "Failed to load model") := by
  rcases env with ⟨ml, dl, dp, dpr⟩
  rcases ml with _ | m
  · exact ⟨fun _ => ⟨rfl, rfl⟩, fun _ => rfl⟩
  · rcases m with vals | _ | _ | t | ⟨outcome, errMsg⟩
    · rcases dl with _ | ds
      · exact ⟨fun _ => ⟨rfl, rfl⟩, fun h => by cases h⟩
      · refine ⟨fun h => absurd rfl h, fun h => by cases h⟩
    · rcases dl with _ | ds
      · exact ⟨fun _ => ⟨rfl, rfl⟩, fun h => by cases h⟩
      · refine ⟨fun h => absurd rfl h, fun h => by cases h⟩
    · exact ⟨fun _ => ⟨rfl, rfl⟩, fun h => by cases h⟩
    · exact ⟨fun _ => ⟨rfl, rfl⟩, fun h => by cases h⟩
    · rcases dl with _ | ds
      · exact ⟨fun _ => ⟨rfl, rfl⟩, fun h => by cases h⟩
      · rcases outcome with _ | po
        · exact ⟨fun _ => ⟨rfl, rfl⟩, fun h => by cases h⟩
        · rcases po with ⟨preds, probaOpt⟩
          refine ⟨fun h => absurd rfl h, fun h => by cases h⟩

theorem c1_no_escape_failure_defaults_witness :
    (performFairnessAnalysis envBadModel none).fairness = 1/2 ∧
    (performFairnessAnalysis envBadModel none).biasMetrics = [] :=
  (c1_no_escape_failure_defaults envBadModel none).1 (by with_unfolding_all decide)

/-- C8 counterexample: on the model-load-failure path the returned
`intentional_bias` field is the JSON string `"[]"` (model_controller.py line
315), not a Python list of attribute names. -/
theorem c8_counterexample :
    (performFairnessAnalysis envBadModel none).ib = IBField.asString "[]" ∧
    ((performFairnessAnalysis envBadModel none).ib).isList = false := by
  exact ⟨rfl, rfl⟩

/-- C8, amended: every result carries an `intentional_bias` field, but on the
model-load-failure and dataset-load-failure paths it is the JSON string
`"[]"`; on every other path (the success path and the remaining failure
paths) it is a list of attribute names. -/
theorem c8_intentional_bias_shape (env : RunEnv)
    (sensArg : Option (List String)) :
    ((env.modelLoad = none ∨ (usableModel env.modelLoad = true ∧ env.dataLoad = none)) →
      (performFairnessAnalysis env sensArg).ib = IBField.asString "[]") ∧
    (¬ (env.modelLoad = none ∨ (usableModel env.modelLoad = true ∧ env.dataLoad = none)) →
      ((performFairnessAnalysis env sensArg).ib).isList = true) := by
  rcases env with ⟨ml, dl, dp, dpr⟩
  rcases ml with _ | m
  · exact ⟨fun _ => rfl, fun h => absurd (Or.inl rfl) h⟩
  · rcases m with vals | _ | _ | t | ⟨outcome, errMsg⟩
    · rcases dl with _ | ds
      · exact ⟨fun _ => rfl, fun h => absurd (Or.inr ⟨rfl, rfl⟩) h⟩
      · refine ⟨fun h => ?_, fun _ => rfl⟩
        rcases h with h | ⟨_, h⟩ <;> cases h
    · rcases dl with _ | ds
      · exact ⟨fun _ => rfl, fun h => absurd (Or.inr ⟨rfl, rfl⟩) h⟩
      · refine ⟨fun h => ?_, fun _ => rfl⟩
        rcases h with h | ⟨_, h⟩ <;> cases h
    · refine ⟨fun h => ?_, fun _ => rfl⟩
      rcases h with h | ⟨h, _⟩ <;> cases h
    · refine ⟨fun h => ?_, fun _ => rfl⟩
      rcases h with h | ⟨h, _⟩ <;> cases h
    · rcases dl with _ | ds
      · exact ⟨fun _ => rfl, fun h => absurd (Or.inr ⟨rfl, rfl⟩) h⟩
      · rcases outcome with _ | po
        · refine ⟨fun h => ?_, fun _ => rfl⟩
          rcases h with h | ⟨_, h⟩ <;> cases h
        · rcases po with ⟨preds, probaOpt⟩
          refine ⟨fun h => ?_, fun _ => rfl⟩
          rcases h with h | ⟨_, h⟩ <;> cases h

theorem c8_intentional_bias_shape_witness :
    (performFairnessAnalysis envBadData none).ib = IBField.asString "[]" ∧
    ((performFairnessAnalysis envOneGroup (some ["gender"])).ib).isList = true :=
  ⟨(c8_intentional_bias_shape envBadData none).1 (by with_unfolding_all decide),
   (c8_intentional_bias_shape envOneGroup (some ["gender"])).2 (by with_unfolding_all decide)⟩

/-- C2 counterexample: on a dataset whose only sensitive attribute has a
single distinct value, the attribute is NOT skipped in the output — it
receives a `bias_metrics` entry and is listed in `intentional_bias` — and the
returned `fairness_score` is 1.0, not the default 0.5, because the aggregated
collection `dp_diffs + eo_diffs + [aod] + fpr_diffs + tpr_diffs` still holds
the element `aod = 0`, so `bias_score = 0`. -/
theorem c2_counterexample :
    (uniqueCells (getCol dsOneGroup "gender")).length = 1 ∧
    ((performFairnessAnalysis envOneGroup (some ["gender"])).biasMetrics.lookup
      "gender").isSome = true ∧
    (performFairnessAnalysis envOneGroup (some ["gender"])).fairness = 1 ∧
    (performFairnessAnalysis envOneGroup (some ["gender"])).fairness ≠ 1/2 := by
  refine ⟨by with_unfolding_all decide, by with_unfolding_all decide, by with_unfolding_all decide, by with_unfolding_all decide⟩

/-- C2, amended: a sensitive attribute with fewer than 2 observed distinct
values contributes no comparison to the disparity lists, but it is NOT
skipped in the output: whenever it is a column of the feature table it still
receives a `bias_metrics` entry; and when no attribute produces a comparison,
the disparity lists are empty, the aggregate collection degenerates to
`[aod] = [0]`, and the fairness score is 1.0 (not the 0.5 default). -/
theorem c2_single_group_attribute (strOf : ℚ → String) (X : Dataset)
    (gm : GroupMetrics) (sens : List String) (dl : DiffLists) (fs : ℚ)
    (c : String) :
    ((uniqueCells (getCol X c)).length < 2 → attrDiffs X gm c = none) ∧
    ((∀ a ∈ sens, (uniqueCells (getCol X a)).length < 2) →
      buildDiffs X sens gm = ⟨[], [], [], []⟩ ∧
      fairnessOf (⟨[], [], [], []⟩ : DiffLists) = 1) ∧
    (c ∈ sens → c ∈ colNames X →
      ((buildBiasMetrics strOf X sens dl gm fs).lookup c).isSome = true) := by
  refine ⟨attrDiffs_none_of_lt_two X gm c, fun h => ⟨?_, by with_unfolding_all decide⟩, fun h1 h2 => ?_⟩
  · exact buildDiffsAux_skip X gm sens _
      (fun a ha => attrDiffs_none_of_lt_two X gm a (h a ha))
  · exact buildBiasMetricsAux_lookup_isSome strOf X dl gm fs sens [] c
      (Or.inr ⟨h1, h2⟩)

theorem c2_single_group_attribute_witness :
    attrDiffs (featureCols dsOneGroup "target") gmOneGroup "gender" = none ∧
    buildDiffs (featureCols dsOneGroup "target") ["gender"] gmOneGroup
      = ⟨[], [], [], []⟩ ∧
    ((buildBiasMetrics strOfQ (featureCols dsOneGroup "target") ["gender"]
      (⟨[], [], [], []⟩ : DiffLists) gmOneGroup 1).lookup "gender").isSome = true := by
  have h := c2_single_group_attribute strOfQ (featureCols dsOneGroup "target")
    gmOneGroup ["gender"] (⟨[], [], [], []⟩ : DiffLists) 1 "gender"
  exact ⟨h.1 (by with_unfolding_all decide), (h.2.1 (by with_unfolding_all decide)).1, h.2.2 (by with_unfolding_all decide) (by with_unfolding_all decide)⟩

/-- C3 counterexample: the returned `fairness_score` is the clamp rounded to
3 decimals, not the exact `clamp(1 - bias_score, 0, 1)`: in the
`envTwoGroups` run the clamp value is 11/12 = 0.91666…, while the returned
score is 0.917. -/
theorem c3_counterexample :
    (performFairnessAnalysis envTwoGroups (some ["gender"])).fairness = 917/1000 ∧
    (performFairnessAnalysis envTwoGroups (some ["gender"])).fairness
      = round3 (max 0 (min 1 (1 - biasScoreOf dlTwoGroups))) ∧
    max 0 (min 1 (1 - biasScoreOf dlTwoGroups)) = 11/12 ∧
    (917/1000 : ℚ) ≠ 11/12 := by
  refine ⟨by with_unfolding_all decide, by with_unfolding_all decide, by with_unfolding_all decide, by with_unfolding_all decide⟩

/-- C3, amended: on the success path the disparity values are aggregated into
the single flat collection `dp_diffs ++ eo_diffs ++ [aod] ++ fpr_diffs ++
tpr_diffs`, `bias_score` is its arithmetic mean, and the returned
`fairness_score` equals `clamp(1 - bias_score, 0, 1)` rounded to 3 decimals —
in particular it always lies in [0, 1]. -/
theorem c3_direct_scoring (strOf : ℚ → String) (X : Dataset)
    (sens : List String) (ytrue yp : List ℤ) (pr : List ℚ) :
    (analyzeCore strOf X sens ytrue yp pr).fairness
      = round3 (max 0 (min 1 (1 - biasScoreOf
          (buildDiffs X sens (buildMetrics X sens ytrue (rerankAll X sens pr yp)))))) ∧
    0 ≤ (analyzeCore strOf X sens ytrue yp pr).fairness ∧
    (analyzeCore strOf X sens ytrue yp pr).fairness ≤ 1 := by
  have hdef : (analyzeCore strOf X sens ytrue yp pr).fairness
      = round3 (fairnessOf
          (buildDiffs X sens (buildMetrics X sens ytrue (rerankAll X sens pr yp)))) := rfl
  have hb := fairnessOf_bounds
    (buildDiffs X sens (buildMetrics X sens ytrue (rerankAll X sens pr yp)))
  have hr := round3_bounds _ hb.1 hb.2
  exact ⟨hdef, hdef ▸ hr.1, hdef ▸ hr.2⟩

/-- C5 counterexample: the reported `average_odds_diff` is one global
aggregate `0.5 * (mean(fpr_diffs) + mean(tpr_diffs))`, not a per-comparison
quantity: in the `envTwoAttrs` run the `gender` comparison has
`fpr_diff = 2/3` and `tpr_diff = 0`, so `0.5 * (fpr_diff + tpr_diff) = 1/3`,
yet the `average_odds_diff` reported for `gender` is 0.208. -/
theorem c5_counterexample :
    attrDiffs xTwoAttrs gmTwoAttrs "gender" = some (2/3, 0, 2/3, 0) ∧
    ((performFairnessAnalysis envTwoAttrs
        (some ["gender", "city"])).biasMetrics.lookup "gender").map AttrEntry.aodE
      = some (26/125) ∧
    (26/125 : ℚ) ≠ (1/2) * (2/3 + 0) := by
  refine ⟨by with_unfolding_all decide, by with_unfolding_all decide, by with_unfolding_all decide⟩

/-- C5, amended: every `bias_metrics` entry reports the same
`average_odds_diff`, namely the global `aod` rounded to 3 decimals; only when
the analysis produced exactly one two-group comparison does the (unrounded)
`aod` equal `0.5 * (fpr_diff + tpr_diff)` of that comparison. -/
theorem c5_average_odds (strOf : ℚ → String) (X : Dataset)
    (sens : List String) (dl : DiffLists) (gm : GroupMetrics) (fs : ℚ)
    (col : String) (e : AttrEntry) (f t : ℚ) :
    ((buildBiasMetrics strOf X sens dl gm fs).lookup col = some e →
      e.aodE = round3 (aodOf dl)) ∧
    (dl.fpr = [f] → dl.tpr = [t] → aodOf dl = (1/2) * (f + t)) := by
  constructor
  · intro h
    have he : e = mkAttrEntry strOf col dl gm fs :=
      buildBiasMetricsAux_lookup_eq strOf X dl gm fs sens []
        (fun k e' h' => by cases h') col e h
    rw [he]
    rfl
  · intro hf ht
    unfold aodOf
    rw [hf, ht]
    unfold meanQ
    norm_num
    ring

theorem c5_average_odds_witness :
    entryTwoGroups.aodE = round3 (aodOf dlTwoGroups) ∧
    aodOf dlTwoGroups = (1/2) * (1/6 + 0) := by
  have h := c5_average_odds strOfQ xTwoGroups ["gender"] dlTwoGroups gmTwoGroups
    (fairnessOf dlTwoGroups) "gender" entryTwoGroups (1/6) 0
  exact ⟨h.1 (by with_unfolding_all decide), h.2 (by with_unfolding_all decide) (by with_unfolding_all decide)⟩

/-- C10: whenever an analyzed attribute's name does not occur as a substring
of the string rendering of any computed disparity value (true of any
letter-bearing name, since a float renders to digits and `-./e`), the
per-attribute `demographic_parity_diff`, `equal_opportunity_diff`,
`fpr_diff` and `tpr_diff` of its `bias_metrics` entry are all 0:
the filter `[d for d in diffs if col in str(d)]` keeps nothing, the mean of
the empty list is NaN, and the NaN is sanitized to 0. -/
theorem c10_substring_filter_zeroes (strOf : ℚ → String) (X : Dataset)
    (sens : List String) (ytrue yp : List ℤ) (pr : List ℚ) (col : String)
    (e : AttrEntry) (dl : DiffLists) (gm : GroupMetrics)
    (hgm : gm = buildMetrics X sens ytrue (rerankAll X sens pr yp))
    (hdl : dl = buildDiffs X sens gm)
    (hdp : ∀ d ∈ dl.dp, strContains (strOf d) col = false)
    (heo : ∀ d ∈ dl.eo, strContains (strOf d) col = false)
    (hfp : ∀ d ∈ dl.fpr, strContains (strOf d) col = false)
    (htp : ∀ d ∈ dl.tpr, strContains (strOf d) col = false)
    (hlk : (analyzeCore strOf X sens ytrue yp pr).biasMetrics.lookup col = some e) :
    e.dp = 0 ∧ e.eo = 0 ∧ e.fprD = 0 ∧ e.tprD = 0 := by
  subst hgm
  subst hdl
  have hbm : (analyzeCore strOf X sens ytrue yp pr).biasMetrics
      = buildBiasMetrics strOf X sens
          (buildDiffs X sens (buildMetrics X sens ytrue (rerankAll X sens pr yp)))
          (buildMetrics X sens ytrue (rerankAll X sens pr yp))
          (fairnessOf (buildDiffs X sens
            (buildMetrics X sens ytrue (rerankAll X sens pr yp)))) := rfl
  rw [hbm] at hlk
  have he := buildBiasMetricsAux_lookup_eq strOf X _ _ _ sens []
    (fun k e' h' => by cases h') col e hlk
  rw [he]
  exact ⟨entryDiff_zero strOf col _ hdp, entryDiff_zero strOf col _ heo,
    entryDiff_zero strOf col _ hfp, entryDiff_zero strOf col _ htp⟩

theorem c10_substring_filter_zeroes_witness :
    entryTwoGroups.dp = 0 ∧ entryTwoGroups.eo = 0 ∧
    entryTwoGroups.fprD = 0 ∧ entryTwoGroups.tprD = 0 :=
  c10_substring_filter_zeroes strOfQ xTwoGroups ["gender"] ytrueTwoGroups
    ypTwoGroups prTwoGroups "gender" entryTwoGroups dlTwoGroups gmTwoGroups
    rfl rfl
    (by with_unfolding_all decide) (by with_unfolding_all decide)
    (by with_unfolding_all decide) (by with_unfolding_all decide)
    (by with_unfolding_all decide)

/-- C4: re-ranking one group sorts the group's row indices by descending
probability and sets exactly the top `int(0.5 * group_size)` of them to
prediction 1 and the remaining group rows to 0, leaving rows outside the
group unchanged. -/
theorem c4_rerank_top_half (yp : List ℤ) (pr : List ℚ) (gidx : List ℕ)
    (hnd : gidx.Nodup) (hb : ∀ i ∈ gidx, i < yp.length) :
    List.Sorted (fun i j => pr.getD j 0 ≤ pr.getD i 0) (sortDescBy pr gidx) ∧
    (sortDescBy pr gidx).length = gidx.length ∧
    (∀ i ∈ (sortDescBy pr gidx).take (gidx.length / 2),
      (rerankGroup yp pr gidx).getD i 0 = 1) ∧
    (∀ i ∈ (sortDescBy pr gidx).drop (gidx.length / 2),
      (rerankGroup yp pr gidx).getD i 0 = 0) ∧
    (∀ i, i ∉ gidx → (rerankGroup yp pr gidx).getD i 0 = yp.getD i 0) := by
  haveI ht : IsTotal ℕ (fun i j => pr.getD j 0 ≤ pr.getD i 0) :=
    ⟨fun a b => le_total (pr.getD b 0) (pr.getD a 0)⟩
  haveI htr : IsTrans ℕ (fun i j => pr.getD j 0 ≤ pr.getD i 0) :=
    ⟨fun a b c h1 h2 => le_trans h2 h1⟩
  have hperm : (sortDescBy pr gidx).Perm gidx := by
    unfold sortDescBy
    exact List.perm_insertionSort _ _
  have hlen : (sortDescBy pr gidx).length = gidx.length := hperm.length_eq
  have hmemS : ∀ {i : ℕ}, i ∈ sortDescBy pr gidx ↔ i ∈ gidx :=
    fun {i} => hperm.mem_iff
  have hndS : (sortDescBy pr gidx).Nodup := hperm.symm.nodup hnd
  have hsorted : List.Sorted (fun i j => pr.getD j 0 ≤ pr.getD i 0)
      (sortDescBy pr gidx) := by
    unfold sortDescBy
    exact List.sorted_insertionSort _ _
  by_cases hge : gidx.isEmpty = true
  · have hnil : gidx = [] := List.isEmpty_iff.mp hge
    subst hnil
    have hsnil : sortDescBy pr [] = [] := rfl
    have hr : rerankGroup yp pr [] = yp := by
      unfold rerankGroup
      rw [if_pos hge]
    refine ⟨hsorted, hlen, ?_, ?_, ?_⟩
    · intro i hi
      rw [hsnil] at hi
      simp at hi
    · intro i hi
      rw [hsnil] at hi
      simp at hi
    · intro i _
      rw [hr]
  · have hre : rerankGroup yp pr gidx
        = setAll (setAll yp (sortDescBy pr gidx) 0)
            ((sortDescBy pr gidx).take ((sortDescBy pr gidx).length / 2)) 1 := by
      unfold rerankGroup
      rw [if_neg hge]
    have hk : (sortDescBy pr gidx).length / 2 = gidx.length / 2 := by rw [hlen]
    rw [hk] at hre
    have hlenA : (setAll yp (sortDescBy pr gidx) 0).length = yp.length :=
      setAll_length _ _ _
    refine ⟨hsorted, hlen, ?_, ?_, ?_⟩
    · intro i hi
      have hiS : i ∈ sortDescBy pr gidx := List.mem_of_mem_take hi
      have hilt : i < yp.length := hb i (hmemS.mp hiS)
      rw [hre]
      exact getD_setAll_mem _ _ _ _ hi (by rw [hlenA]; exact hilt)
    · intro i hi
      have hiS : i ∈ sortDescBy pr gidx := List.mem_of_mem_drop hi
      have hilt : i < yp.length := hb i (hmemS.mp hiS)
      have hnt : i ∉ (sortDescBy pr gidx).take (gidx.length / 2) := by
        intro hmem_take
        exact List.disjoint_take_drop hndS le_rfl hmem_take hi
      rw [hre, getD_setAll_not_mem _ _ _ _ hnt]
      exact getD_setAll_mem _ _ _ _ hiS hilt
    · intro i hig
      have hiS : i ∉ sortDescBy pr gidx := fun hmem => hig (hmemS.mp hmem)
      have hnt : i ∉ (sortDescBy pr gidx).take (gidx.length / 2) :=
        fun hmem => hiS (List.mem_of_mem_take hmem)
      rw [hre, getD_setAll_not_mem _ _ _ _ hnt, getD_setAll_not_mem _ _ _ _ hiS]

theorem c4_rerank_top_half_witness :
    (rerankGroup [5, 7] [1, 0] [0, 1]).getD 0 0 = 1 ∧
    (rerankGroup [5, 7] [1, 0] [0, 1]).getD 1 0 = 0 ∧
    (rerankGroup [5, 7] [1, 0] [0, 1]).getD 2 0 = ([5, 7] : List ℤ).getD 2 0 := by
  have h := c4_rerank_top_half [5, 7] [1, 0] [0, 1]
    (by with_unfolding_all decide) (by with_unfolding_all decide)
  exact ⟨h.2.2.1 0 (by with_unfolding_all decide),
    h.2.2.2.1 1 (by with_unfolding_all decide),
    h.2.2.2.2 2 (by with_unfolding_all decide)⟩

end SAPFair
